import Mathlib

/-!
Verification of the request-dispatch and protocol-framing core of a Git
smart-HTTP server (package `githttp`): URL routing, packet-line framing,
repository resolution, access control, the RPC proxy step order, and the
regex-based push/fetch event extraction.

The Go sources are embedded shallowly: Go strings are modelled as Lean
`String`s whose characters stand for bytes (`len` in Go counts bytes, which
coincides with character count for the ASCII data handled here), external
effects (`os.Stat`, `git config`, the subprocess) are modelled as explicit
oracle parameters, and the two hand-written regular expressions are compiled
by hand into executable scanners following RE2 leftmost-first semantics.
-/

namespace Githttp

/-! ## Data model: events (git-http.go lines 37-65) -/

/-- `EventType` with the constants `TAG`, `PUSH`, `FETCH` (`iota + 1`). -/
inductive EventType where
  | TAG
  | PUSH
  | FETCH
deriving DecidableEq, Repr

/-- The `Event` struct. Field names are lowercased (`Type`, `Commit`, `Dir`,
`Tag`, `Last`, `Branch` in the source); Go's zero value for an unset string
field is the empty string, which constructors below pass explicitly. -/
structure Event where
  type : EventType
  commit : String
  dir : String
  tag : String
  last : String
  branch : String
deriving DecidableEq, Repr

/-! ## Character classes used by the two action regexes

`receivePackRegex = ([0-9a-fA-F]{40}) ([0-9a-fA-F]{40}) refs\/(heads|tags)\/(.*?)( |00|\x00)|^(0000)$`
`uploadPackRegex  = ^\S+ ([0-9a-fA-F]{40})`
(git-http.go lines 183-186). -/

/-- The RE2 class `[0-9a-fA-F]`. -/
def goIsHex (c : Char) : Bool :=
  (48 ≤ c.toNat && c.toNat ≤ 57) || (97 ≤ c.toNat && c.toNat ≤ 102) ||
    (65 ≤ c.toNat && c.toNat ≤ 70)

/-- The RE2 Perl class `\s`, which is exactly `[\t\n\f\r ]`. -/
def goIsSpace (c : Char) : Bool :=
  c == ' ' || c == '\t' || c == '\n' || c == Char.ofNat 12 || c == '\r'

/-! ## upload-pack extraction (git-http.go lines 216-225)

`uploadPackRegex.FindAllStringSubmatch(input, -1)`: the pattern starts with
`^`, which in RE2 without multiline mode matches only at the beginning of the
text, so at most one match exists and it is located at offset 0.  `\S+` is a
maximal run of non-space characters (it cannot stop earlier, because the
character after a shorter run is still non-space while the pattern demands a
literal space), then a literal space, then exactly forty hex characters,
captured as group 1. -/

/-- Captured group 1 of each match of `uploadPackRegex` over the payload, in
match order (a singleton or empty list, by the `^` anchor). -/
def uploadPackScan (input : String) : List String :=
  let cs := input.data
  let tok := cs.takeWhile (fun c => !goIsSpace c)
  if tok.isEmpty then []
  else
    match cs.drop tok.length with
    | ' ' :: rest =>
      let sha := rest.take 40
      if sha.length == 40 && sha.all goIsHex then [String.mk sha] else []
    | _ => []

/-- The upload-pack branch of `serviceRpc`: one `FETCH` event per match,
commit = group 1, other string fields left at their zero value. -/
def uploadPackEvents (dir : String) (input : String) : List Event :=
  (uploadPackScan input).map fun sha =>
    ⟨EventType.FETCH, sha, dir, "", "", ""⟩

/-! ## receive-pack extraction (git-http.go lines 227-249)

`receivePackRegex.FindAllStringSubmatch(input, -1)`, compiled by hand.  The
second alternative `^(0000)$` is anchored on both sides by text anchors (no
multiline flag), so it matches exactly when the whole payload is `"0000"`.
The first alternative is unanchored; `FindAll` takes the leftmost match,
records the captures, and resumes the scan right after the matched text. -/

/-- Captures of one match of the first alternative: groups 1-4
(`old-sha`, `new-sha`, `heads`/`tags`, ref name). -/
structure RefUpdateMatch where
  m1 : String
  m2 : String
  m3 : String
  m4 : String
deriving DecidableEq, Repr

/-- The terminator alternation `( |00|\x00)`, tried left to right at one
position; returns the number of characters it consumes. -/
def termAt (cs : List Char) : Option Nat :=
  match cs with
  | ' ' :: _ => some 1
  | '0' :: '0' :: _ => some 2
  | c :: _ => if c == Char.ofNat 0 then some 1 else none
  | [] => none

/-- The lazy `(.*?)` followed by the terminator: the shortest newline-free
run of characters after which a terminator matches (`.` does not match a
newline in RE2 by default).  Returns the run and the terminator length. -/
def lazyNameScan : List Char → Option (List Char × Nat)
  | [] => none
  | c :: rest =>
    match termAt (c :: rest) with
    | some n => some ([], n)
    | none =>
      if c == '\n' then none
      else (lazyNameScan rest).map fun p => (c :: p.1, p.2)

/-- One attempt of the first alternative anchored at the head of `cs`:
forty hex chars, a space, forty hex chars, a space, `refs/`, then `heads/`
or `tags/` (mutually exclusive on their first character, so the alternation
needs no backtracking), then the lazy name and a terminator.  Returns the
captures and the total number of characters consumed. -/
def matchRefUpdateAt (cs : List Char) : Option (RefUpdateMatch × Nat) :=
  let h1 := cs.take 40
  if h1.length == 40 && h1.all goIsHex then
    match cs.drop 40 with
    | ' ' :: r2 =>
      let h2 := r2.take 40
      if h2.length == 40 && h2.all goIsHex then
        match r2.drop 40 with
        | ' ' :: r4 =>
          if "refs/".data.isPrefixOf r4 then
            let r5 := r4.drop 5
            if "heads/".data.isPrefixOf r5 then
              match lazyNameScan (r5.drop 6) with
              | some p => some (⟨String.mk h1, String.mk h2, "heads", String.mk p.1⟩, 93 + p.1.length + p.2)
              | none => none
            else if "tags/".data.isPrefixOf r5 then
              match lazyNameScan (r5.drop 5) with
              | some p => some (⟨String.mk h1, String.mk h2, "tags", String.mk p.1⟩, 92 + p.1.length + p.2)
              | none => none
            else none
          else none
        | _ => none
      else none
    | _ => none
  else none

/-- The `FindAll` loop for the unanchored first alternative: try a match at
every offset from left to right; on success resume after the matched text.
Each step removes at least one character, so `fuel` set to the input length
suffices. -/
def receivePackScanAux : Nat → List Char → List RefUpdateMatch
  | 0, _ => []
  | _ + 1, [] => []
  | fuel + 1, c :: rest =>
    match matchRefUpdateAt (c :: rest) with
    | some mc => mc.1 :: receivePackScanAux fuel ((c :: rest).drop mc.2)
    | none => receivePackScanAux fuel rest

/-- All matches of `receivePackRegex` over the payload.  When the flush
alternative `^(0000)$` fires (payload exactly `"0000"`), groups 1-4 are
unset, which Go's `FindAllStringSubmatch` reports as empty strings. -/
def receivePackMatches (input : String) : List RefUpdateMatch :=
  if input == "0000" then [⟨"", "", "", ""⟩]
  else receivePackScanAux input.data.length input.data

/-- The receive-pack branch of `serviceRpc`: for each match an event with
`Last = m[1]`, `Commit = m[2]`; `PUSH` with `Branch = m[4]` when
`m[3] == "heads"`, otherwise `TAG` with `Tag = m[4]`. -/
def receivePackEvents (dir : String) (input : String) : List Event :=
  (receivePackMatches input).map fun m =>
    if m.m3 == "heads" then ⟨EventType.PUSH, m.m2, dir, "", m.m1, m.m4⟩
    else ⟨EventType.TAG, m.m2, dir, m.m4, m.m1, ""⟩

/-- The event-extraction part of `serviceRpc` as a function of the rpc kind
(the two `if rpc == ...` branches of git-http.go lines 216-249). -/
def extractEvents (rpc dir input : String) : List Event :=
  if rpc == "upload-pack" then uploadPackEvents dir input
  else if rpc == "receive-pack" then receivePackEvents dir input
  else []

/-! ## Packet-line framing (git-http.go lines 469-481) -/

/-- One digit of Go's `strconv.FormatInt(_, 16)`, which indexes the table
`"0123456789abcdefghijklmnopqrstuvwxyz"` (lowercase). -/
def hexDigitChar (n : Nat) : Char :=
  match n with
  | 0 => '0' | 1 => '1' | 2 => '2' | 3 => '3' | 4 => '4'
  | 5 => '5' | 6 => '6' | 7 => '7' | 8 => '8' | 9 => '9'
  | 10 => 'a' | 11 => 'b' | 12 => 'c' | 13 => 'd' | 14 => 'e' | 15 => 'f'
  | _ => '0'

/-- `strconv.FormatInt(int64 n, 16)` for a positive `n`: most significant
digit first, no padding. -/
def formatHex (n : Nat) : List Char :=
  if _h : n < 16 then [hexDigitChar n]
  else formatHex (n / 16) ++ [hexDigitChar (n % 16)]
termination_by n
decreasing_by simp_wf; omega

/-- The prefix computation of `packetWrite`: the hex of the length,
left-padded with `'0'` to a multiple of four characters
(`strings.Repeat("0", 4-len(s)%4) + s`). -/
def padHex (n : Nat) : List Char :=
  let s := formatHex n
  if s.length % 4 ≠ 0 then List.replicate (4 - s.length % 4) '0' ++ s else s

/-- `packetWrite(str)`: the padded hex of `len(str)+4` followed by `str`
itself.  The Go code builds the prefix as a string `s` and returns
`[]byte(s + str)`; the same bytes are assembled here at the character-list
level. -/
def packetWrite (str : String) : String :=
  String.mk (padHex (str.length + 4) ++ str.data)

/-- `packetFlush()` is the literal four bytes `"0000"`. -/
def packetFlush : String := "0000"

/-- Modelled from the spec: `decodeLength` — the repository has no decode
path, so the spec-side reading of the four-character hex length prefix is
defined here for the round-trip property.  One hex character's value. -/
def hexCharVal (c : Char) : Nat :=
  match c with
  | '0' => 0 | '1' => 1 | '2' => 2 | '3' => 3 | '4' => 4
  | '5' => 5 | '6' => 6 | '7' => 7 | '8' => 8 | '9' => 9
  | 'a' => 10 | 'b' => 11 | 'c' => 12 | 'd' => 13 | 'e' => 14 | 'f' => 15
  | 'A' => 10 | 'B' => 11 | 'C' => 12 | 'D' => 13 | 'E' => 14 | 'F' => 15
  | _ => 0

/-- Modelled from the spec: decoding the four-character hex length prefix of
a packet line. -/
def decodeLength (s : String) : Nat :=
  (s.data.take 4).foldl (fun a c => 16 * a + hexCharVal c) 0

/-! ## Repository resolution (git-http.go lines 342-362)

`getGitDir` joins the captured repository prefix onto the project root with
Go's `path.Join`, which runs `path.Clean` over the slash-joined string, and
then stats the result.  `path.Clean` is embedded at the segment level: empty
and `"."` segments are dropped, `".."` pops the previous real segment, and a
`".."` that cannot pop is dropped when the path is rooted and kept
otherwise. -/

/-- Split a character list at every `'/'` (the segment view `path.Clean`
iterates over). -/
def splitSlash : List Char → List (List Char)
  | [] => [[]]
  | c :: rest =>
    match splitSlash rest with
    | seg :: segs => if c == '/' then [] :: seg :: segs else (c :: seg) :: segs
    | [] => [[]]

/-- Join segments back with `'/'`. -/
def joinSlash : List (List Char) → List Char
  | [] => []
  | [seg] => seg
  | seg :: rest => seg ++ '/' :: joinSlash rest

/-- The segment loop of Go's `path.Clean`.  `acc` is the output stack;
backtracking on `".."` is possible exactly when the stack is nonempty and
its last element is not itself `".."` (appended `".."`s are never popped). -/
def cleanSegs (rooted : Bool) : List (List Char) → List (List Char) → List (List Char)
  | [], acc => acc
  | seg :: rest, acc =>
    if seg.isEmpty || seg == ['.'] then cleanSegs rooted rest acc
    else if seg == ['.', '.'] then
      if !acc.isEmpty && acc.getLast? != some ['.', '.'] then cleanSegs rooted rest acc.dropLast
      else if rooted then cleanSegs rooted rest acc
      else cleanSegs rooted rest (acc ++ [seg])
    else cleanSegs rooted rest (acc ++ [seg])

/-- Go `path.Clean`. -/
def goPathClean (p : String) : String :=
  if p == "" then "."
  else
    let rooted := p.data.head? == some '/'
    let stack := cleanSegs rooted (splitSlash p.data) []
    if rooted then String.mk ('/' :: joinSlash stack)
    else if stack.isEmpty then "." else String.mk (joinSlash stack)

/-- Go `path.Join` for two elements: the elements from the first nonempty
one are joined with `"/"` and the result is cleaned; all-empty input yields
the empty string. -/
def goPathJoin (a b : String) : String :=
  if a == "" && b == "" then ""
  else if a == "" then goPathClean b
  else goPathClean (a ++ "/" ++ b)

/-- `getGitDir`: empty `ProjectRoot` falls back to the working directory
(`os.Getwd`, modelled as the `cwd` parameter); the joined path is returned
when the `os.Stat` oracle reports it exists, otherwise a not-found error
(modelled as `none`). -/
def getGitDir (projectRoot cwd : String) (stat : String → Bool) (file_path : String) :
    Option String :=
  let root := if projectRoot == "" then cwd else projectRoot
  let f := goPathJoin root file_path
  if stat f then some f else none

/-- Modelled from the spec: "a repository prefix containing `..` never
resolves to a path outside the configured root".  A resolved path is inside
the root when it equals the root or extends it past a path separator. -/
def insideRoot (root p : String) : Bool :=
  p == root || (root ++ "/").data.isPrefixOf p.data

/-! ## Access control (git-http.go lines 364-393) -/

/-- `getConfigSetting`: hyphens are removed from the service name
(`strings.Replace(service_name, "-", "", -1)`, modelled as a character
filter), the setting is read through the configuration oracle `getConfig`
(standing for `getGitConfig`, i.e. `git config http.<name>` with the
trailing newline stripped), and uploadpack defaults open while receivepack
defaults closed. -/
def getConfigSetting (getConfig : String → String) (service_name : String) : Bool :=
  let name := String.mk (service_name.data.filter (fun c => c != '-'))
  let setting := getConfig ("http." ++ name)
  if name == "uploadpack" then setting != "false" else setting == "true"

/-- `hasAccess`: optional content-type check, rejection of non-RPC
operations, then the two global flags; the `getConfigSetting` fall-through
is textually last.  `contentType` stands for `r.Header.Get("Content-Type")`.
-/
def hasAccess (uploadPack receivePack : Bool) (getConfig : String → String)
    (contentType rpc : String) (check_content_type : Bool) : Bool :=
  if check_content_type && contentType != ("application/x-git-" ++ rpc ++ "-request") then false
  else if !(rpc == "upload-pack" || rpc == "receive-pack") then false
  else if rpc == "receive-pack" then receivePack
  else if rpc == "upload-pack" then uploadPack
  else getConfigSetting getConfig rpc

/-- Follows the amended claim's words: after the content-type check the
decision is the global flag of the operation; no configuration value is
consulted. -/
def hasAccessAmended (uploadPack receivePack : Bool) (contentType rpc : String)
    (check_content_type : Bool) : Bool :=
  if check_content_type && contentType != ("application/x-git-" ++ rpc ++ "-request") then false
  else if rpc == "receive-pack" then receivePack
  else if rpc == "upload-pack" then uploadPack
  else false

/-! ## Routing (routing.go; the same table appears in git-http.go `services`)

Every route pattern has the shape `(.*?)<suffix>$`.  With RE2's leftmost
rule the overall match starts as early as possible; since `.` does not match
a newline, group 1 is the part of the prefix after its last newline.  The
eleven patterns are compiled by hand below; the three patterns with
character classes have fixed-length or last-segment suffixes, so the split
point is determined by the path itself. -/

/-- The RE2 class `[0-9a-f]` (the object patterns use only lowercase). -/
def goIsLowerHex (c : Char) : Bool :=
  (48 ≤ c.toNat && c.toNat ≤ 57) || (97 ≤ c.toNat && c.toNat ≤ 102)

/-- Group 1 of `(.*?)<suffix>$` as a function of the characters standing
before the suffix: everything after the last newline. -/
def lazyGroupOne (cs : List Char) : String :=
  String.mk ((cs.reverse.takeWhile (fun c => c != '\n')).reverse)

/-- Match of a pattern `(.*?)<literal>$` against a path. -/
def matchLazyLit (suffix path : String) : Option String :=
  if suffix.data.isSuffixOf path.data then
    some (lazyGroupOne (path.data.take (path.length - suffix.length)))
  else none

/-- Match of `(.*?)/objects/info/[^/]*$`: the final path segment may be
anything without a slash, and what stands before it must end in
`/objects/info/`. -/
def matchInfoFile (path : String) : Option String :=
  let cs := path.data
  let lastSeg := (cs.reverse.takeWhile (fun c => c != '/')).reverse
  let front := cs.take (cs.length - lastSeg.length)
  if "/objects/info/".data.isSuffixOf front then
    some (lazyGroupOne (front.take (front.length - 14)))
  else none

/-- Match of `(.*?)/objects/[0-9a-f]{2}/[0-9a-f]{38}$` (a fixed-length
fifty-character suffix). -/
def matchLooseObject (path : String) : Option String :=
  let cs := path.data
  if cs.length < 50 then none
  else
    let tail := cs.drop (cs.length - 50)
    if "/objects/".data.isPrefixOf tail
        && ((tail.drop 9).take 2).all goIsLowerHex
        && (tail.drop 11).take 1 == ['/']
        && (tail.drop 12).all goIsLowerHex then
      some (lazyGroupOne (cs.take (cs.length - 50)))
    else none

/-- Match of `(.*?)/objects/pack/pack-[0-9a-f]{40}<ext>$` where `ext` is
`.pack` or `.idx` (a fixed-length suffix of `59 + len ext` characters). -/
def matchPackExt (ext path : String) : Option String :=
  let cs := path.data
  let n := 59 + ext.length
  if cs.length < n then none
  else
    let tail := cs.drop (cs.length - n)
    if "/objects/pack/pack-".data.isPrefixOf tail
        && ((tail.drop 19).take 40).all goIsLowerHex
        && tail.drop 59 == ext.data then
      some (lazyGroupOne (cs.take (cs.length - n)))
    else none

/-- The eleven route patterns (routing.go lines 26-36). -/
inductive GitPattern where
  | serviceRpcUpload
  | serviceRpcReceive
  | infoRefs
  | head
  | alternates
  | httpAlternates
  | infoPacks
  | infoFile
  | looseObject
  | packFile
  | idxFile
deriving DecidableEq, Repr

/-- `FindStringSubmatch` group 1 for each pattern. -/
def patternMatch : GitPattern → String → Option String
  | .serviceRpcUpload, p => matchLazyLit "/git-upload-pack" p
  | .serviceRpcReceive, p => matchLazyLit "/git-receive-pack" p
  | .infoRefs, p => matchLazyLit "/info/refs" p
  | .head, p => matchLazyLit "/HEAD" p
  | .alternates, p => matchLazyLit "/objects/info/alternates" p
  | .httpAlternates, p => matchLazyLit "/objects/info/http-alternates" p
  | .infoPacks, p => matchLazyLit "/objects/info/packs" p
  | .infoFile, p => matchInfoFile p
  | .looseObject, p => matchLooseObject p
  | .packFile, p => matchPackExt ".pack" p
  | .idxFile, p => matchPackExt ".idx" p

/-- The handler a `Service` carries. -/
inductive Handler where
  | serviceRpc
  | getInfoRefs
  | getTextFile
  | getInfoPacks
  | getLooseObject
  | getPackFile
  | getIdxFile
deriving DecidableEq, Repr

/-- One entry of the `services` table: pattern, required method, handler,
rpc name. -/
structure ServiceEntry where
  pattern : GitPattern
  method : String
  handler : Handler
  rpc : String
deriving DecidableEq, Repr

/-- The `services` table in the source's textual order.  In the Go code the
table is a map, so requests observe it in an unspecified iteration order:
`getService` below therefore takes the order as a parameter, and any
permutation of this list is a possible behavior. -/
def services : List ServiceEntry :=
  [ ⟨.serviceRpcUpload, "POST", .serviceRpc, "upload-pack"⟩,
    ⟨.serviceRpcReceive, "POST", .serviceRpc, "receive-pack"⟩,
    ⟨.infoRefs, "GET", .getInfoRefs, ""⟩,
    ⟨.head, "GET", .getTextFile, ""⟩,
    ⟨.alternates, "GET", .getTextFile, ""⟩,
    ⟨.httpAlternates, "GET", .getTextFile, ""⟩,
    ⟨.infoPacks, "GET", .getInfoPacks, ""⟩,
    ⟨.infoFile, "GET", .getTextFile, ""⟩,
    ⟨.looseObject, "GET", .getLooseObject, ""⟩,
    ⟨.packFile, "GET", .getPackFile, ""⟩,
    ⟨.idxFile, "GET", .getIdxFile, ""⟩ ]

/-- One possible iteration order of the services map in which the generic
`objects/info` pattern is visited before the specific `packs` pattern. -/
def servicesOrderVariant : List ServiceEntry :=
  ⟨.infoFile, "GET", .getTextFile, ""⟩ :: (services.take 7 ++ services.drop 8)

/-- `getService` (routing.go lines 58-67): the first entry, in iteration
order, whose pattern matches the path; yields the captured repository
prefix (`m[1]`) and the entry. -/
def getService (order : List ServiceEntry) (path : String) :
    Option (String × ServiceEntry) :=
  order.findSome? fun svc => (patternMatch svc.pattern path).map fun m1 => (m1, svc)

/-! ## Request dispatch (routing.go lines 70-109; git-http.go lines 146-180
follows the same shape with the method check, not-found and
method-not-allowed responses in the same places). -/

/-- `strings.Replace(s, pat, "", 1)`: remove the first occurrence of `pat`
(`pat` is `repo ++ "/"` at the call site, hence never empty). -/
def removeFirstAux (pat : List Char) : List Char → List Char
  | [] => []
  | c :: rest =>
    if pat.isPrefixOf (c :: rest) then (c :: rest).drop pat.length
    else c :: removeFirstAux pat rest

/-- String wrapper for `removeFirstAux`. -/
def removeFirstStr (s pat : String) : String :=
  String.mk (removeFirstAux pat.data s.data)

/-- What `requestHandler` does with a request: a rendered error response or
a dispatch into an operation handler. -/
inductive RouteOutcome where
  | response (status : Nat) (body : String)
  | dispatched (handler : Handler) (rpc dir file : String)
deriving DecidableEq, Repr

/-- `renderNotFound`. -/
def renderNotFound : RouteOutcome := .response 404 "Not Found"

/-- `renderMethodNotAllowed`: 405 under HTTP/1.1, otherwise 400. -/
def renderMethodNotAllowed (proto : String) : RouteOutcome :=
  if proto == "HTTP/1.1" then .response 405 "Method Not Allowed"
  else .response 400 "Bad Request"

/-- `renderNoAccess`. -/
def renderNoAccess : RouteOutcome := .response 403 "Forbidden"

/-- `requestHandler`: route, check the method, resolve the directory, then
dispatch.  `method`, `proto` and `path` stand for `r.Method`, `r.Proto` and
`r.URL.Path`. -/
def requestHandler (order : List ServiceEntry) (projectRoot cwd : String)
    (stat : String → Bool) (method proto path : String) : RouteOutcome :=
  match getService order path with
  | none => renderNotFound
  | some (repo, svc) =>
    if svc.method != method then renderMethodNotAllowed proto
    else
      match getGitDir projectRoot cwd stat repo with
      | none => renderNotFound
      | some dir => .dispatched svc.handler svc.rpc dir (removeFirstStr path (repo ++ "/"))

/-! ## The RPC proxy (git-http.go lines 199-275)

`serviceRpc` is modelled as the pair of (events passed to `g.event`, ordered
I/O steps of one request).  Reading the body happens through `requestReader`
(gzip/deflate), modelled by the `readerOk` flag and the decoded `input`;
the subprocess is modelled by its start success and exit status, which in
the Go code are only logged. -/

/-- Whether `exec.Cmd.Start` succeeded and whether `Wait` reported a zero
exit status. -/
structure SubprocessOutcome where
  startOk : Bool
  exitOk : Bool
deriving DecidableEq, Repr

/-- The externally visible steps of `serviceRpc`, in program order. -/
inductive RpcStep where
  | renderNoAccessStep
  | readerErrorReturn
  | setContentType (v : String)
  | writeHeaderOK
  | logStartError
  | stdinWrite (input : String)
  | copyStdoutToResponse
  | waitExit (ok : Bool)
deriving DecidableEq, Repr

/-- `serviceRpc`: access check (`hasAccess` with the content-type check on),
`requestReader`, full buffering of the body, event extraction and
publication, then headers and the sequential `in.Write(input)`,
`io.Copy(w, stdout)`, `cmd.Wait()` tail.  Returns the events passed to
`g.event` and the ordered step trace. -/
def serviceRpc (uploadPack receivePack : Bool) (getConfig : String → String)
    (contentType : String) (readerOk : Bool) (rpc dir input : String)
    (sub : SubprocessOutcome) : List Event × List RpcStep :=
  if hasAccess uploadPack receivePack getConfig contentType rpc true == false then
    ([], [.renderNoAccessStep])
  else if readerOk == false then ([], [.readerErrorReturn])
  else
    ( extractEvents rpc dir input,
      [.setContentType ("application/x-git-" ++ rpc ++ "-result"), .writeHeaderOK]
        ++ (if sub.startOk then [] else [.logStartError])
        ++ [.stdinWrite input, .copyStdoutToResponse, .waitExit sub.exitOk] )

/-! ## Helper lemmas -/

/-- Encoding a digit below sixteen and reading it back is the identity. -/
theorem hexCharVal_hexDigitChar : ∀ d : Nat, d < 16 → hexCharVal (hexDigitChar d) = d := by
  decide

/-- Reading the hex digits of `n` back, most significant first, recovers
`n` (relative to an arbitrary accumulator). -/
theorem formatHex_foldl (n : Nat) :
    ∀ a : Nat, (formatHex n).foldl (fun a c => 16 * a + hexCharVal c) a
      = a * 16 ^ (formatHex n).length + n := by
  induction n using formatHex.induct with
  | case1 n h =>
    intro a
    rw [formatHex, dif_pos h]
    simp [hexCharVal_hexDigitChar n h]
    ring
  | case2 n h ih =>
    intro a
    rw [formatHex, dif_neg h]
    rw [List.foldl_append, ih a, List.length_append]
    simp only [List.foldl, List.length_cons, List.length_nil]
    rw [hexCharVal_hexDigitChar (n % 16) (Nat.mod_lt _ (by omega))]
    calc 16 * (a * 16 ^ (formatHex (n / 16)).length + n / 16) + n % 16
        = a * (16 ^ (formatHex (n / 16)).length * 16) + (16 * (n / 16) + n % 16) := by ring
      _ = a * 16 ^ ((formatHex (n / 16)).length + 1) + n := by
          rw [Nat.div_add_mod, pow_succ]

/-- The hex of `n` has at least one digit. -/
theorem formatHex_length_pos (n : Nat) : 1 ≤ (formatHex n).length := by
  rw [formatHex]
  split
  · simp
  · simp

/-- `n < 16 ^ k` has at most `k` hex digits (for `k ≥ 1`). -/
theorem formatHex_length_le : ∀ k n : Nat, n < 16 ^ k → 1 ≤ k → (formatHex n).length ≤ k := by
  intro k
  induction k with
  | zero => intro n _ h1; omega
  | succ k ih =>
    intro n hn _
    by_cases h : n < 16
    · rw [formatHex, dif_pos h]; simp
    · rw [formatHex, dif_neg h]
      rw [List.length_append]
      simp only [List.length_cons, List.length_nil]
      have hk : 1 ≤ k := by
        by_contra hk0
        have hk1 : k = 0 := by omega
        subst hk1
        simp at hn
        omega
      have hdiv : n / 16 < 16 ^ k := by
        refine (Nat.div_lt_iff_lt_mul (by norm_num)).mpr ?_
        rw [← pow_succ]
        exact hn
      have := ih (n / 16) hdiv hk
      omega

/-- Leading zero characters do not change the decoded value. -/
theorem foldl_zeros (k : Nat) :
    (List.replicate k '0').foldl (fun a c => 16 * a + hexCharVal c) 0 = 0 := by
  induction k with
  | zero => rfl
  | succ k ih => simpa [List.replicate] using ih

/-- For `0 < n < 65536` the padded hex prefix is exactly four characters. -/
theorem padHex_length (n : Nat) (h65 : n < 65536) : (padHex n).length = 4 := by
  have h1 := formatHex_length_pos n
  have h4 : (formatHex n).length ≤ 4 := by
    refine formatHex_length_le 4 n ?_ (by norm_num)
    have h : (16 : Nat) ^ 4 = 65536 := by norm_num
    omega
  show (if (formatHex n).length % 4 ≠ 0
      then List.replicate (4 - (formatHex n).length % 4) '0' ++ formatHex n
      else formatHex n).length = 4
  split
  · rw [List.length_append, List.length_replicate]
    omega
  · omega

/-- Decoding the padded prefix recovers the encoded length. -/
theorem padHex_foldl (n : Nat) :
    (padHex n).foldl (fun a c => 16 * a + hexCharVal c) 0 = n := by
  have h := formatHex_foldl n 0
  show (if (formatHex n).length % 4 ≠ 0
      then List.replicate (4 - (formatHex n).length % 4) '0' ++ formatHex n
      else formatHex n).foldl (fun a c => 16 * a + hexCharVal c) 0 = n
  split
  · rw [List.foldl_append, foldl_zeros]
    simpa using h
  · simpa using h

/-- Taking as many elements as the first part of an append is long yields
that first part. -/
theorem take_append_of_length {α : Type} (l₁ l₂ : List α) (n : Nat) (h : l₁.length = n) :
    (l₁ ++ l₂).take n = l₁ := by
  subst h
  exact List.take_left l₁ l₂

/-- Dropping as many elements as the first part of an append is long yields
the second part. -/
theorem drop_append_of_length {α : Type} (l₁ l₂ : List α) (n : Nat) (h : l₁.length = n) :
    (l₁ ++ l₂).drop n = l₂ := by
  subst h
  exact List.drop_left l₁ l₂

/-! ## Claim theorems -/

/-- C8: packet-line round-trip.  For every string `s` of length below 65532,
decoding the four-character lowercase-hex length prefix of `packetWrite s`
yields `len s + 4`, the bytes after the prefix are exactly `s`, and
`packetFlush` is the literal `"0000"`. -/
theorem packetWrite_roundtrip (s : String) (hs : s.length < 65532) :
    decodeLength (packetWrite s) = s.length + 4
    ∧ (packetWrite s).data.drop 4 = s.data
    ∧ packetFlush = "0000" := by
  have hlen : (padHex (s.length + 4)).length = 4 := padHex_length _ (by omega)
  refine ⟨?_, ?_, rfl⟩
  · show ((String.mk (padHex (s.length + 4) ++ s.data)).data.take 4).foldl
        (fun a c => 16 * a + hexCharVal c) 0 = s.length + 4
    rw [show (String.mk (padHex (s.length + 4) ++ s.data)).data
        = padHex (s.length + 4) ++ s.data from rfl]
    rw [take_append_of_length _ _ _ hlen]
    exact padHex_foldl _
  · rw [show (packetWrite s).data = padHex (s.length + 4) ++ s.data from rfl]
    exact drop_append_of_length _ _ _ hlen

/-- Witness for C8 at the advertisement header line. -/
theorem packetWrite_roundtrip_witness :
    decodeLength (packetWrite "# service=git-upload-pack\n")
      = "# service=git-upload-pack\n".length + 4
    ∧ (packetWrite "# service=git-upload-pack\n").data.drop 4
      = "# service=git-upload-pack\n".data
    ∧ packetFlush = "0000" :=
  packetWrite_roundtrip "# service=git-upload-pack\n" (by decide)

/-- C1: the claim states that `getGitDir` never resolves a prefix with `..`
segments outside the configured root.  Evaluating the code at the failing
input: with root `/srv/repos` and every path reported as existing, the
prefix `/../../etc` resolves to `/etc`, which is outside the root — Go's
`path.Join` cleans the `..` segments right through the root instead of
rejecting them. -/
theorem getGitDir_escape_eval :
    getGitDir "/srv/repos" "/" (fun _ => true) "/../../etc" = some "/etc"
    ∧ insideRoot "/srv/repos" "/etc" = false := by
  refine ⟨by decide, by decide⟩

/-- C2 counterexample: with no per-repository setting (the configuration
oracle yields the empty string) and the constructor defaults
`UploadPack = ReceivePack = true`, `hasAccess` allows receive-pack, while the
claim demands it be denied; and with `ReceivePack = false` an explicit
`http.receivepack = "true"` setting is never consulted, while the claim's
fallback would allow it. -/
theorem hasAccess_fallback_cex :
    hasAccess true true (fun _ => "") "application/x-git-receive-pack-request"
      "receive-pack" true = true
    ∧ hasAccess true false (fun _ => "true") "application/x-git-receive-pack-request"
      "receive-pack" true = false := by
  refine ⟨by decide, by decide⟩

/-- C2 amended: `hasAccess` decides from the content-type check and the two
global flags alone — the `getConfigSetting` fall-through is unreachable, so
the decision is independent of the configuration store; `getConfigSetting`
itself (were it reached) allows uploadpack unless the setting is exactly
`"false"` and allows receivepack only when it is exactly `"true"`. -/
theorem hasAccess_flags_only :
    (∀ (u r : Bool) (cfg cfg2 : String → String) (ct rpc : String) (chk : Bool),
        hasAccess u r cfg ct rpc chk = hasAccess u r cfg2 ct rpc chk)
    ∧ (∀ (u r : Bool) (cfg : String → String) (ct rpc : String) (chk : Bool),
        hasAccess u r cfg ct rpc chk = hasAccessAmended u r ct rpc chk)
    ∧ (∀ cfg : String → String,
        getConfigSetting cfg "upload-pack" = (cfg "http.uploadpack" != "false"))
    ∧ (∀ cfg : String → String,
        getConfigSetting cfg "receive-pack" = (cfg "http.receivepack" == "true")) := by
  have key : ∀ (u r : Bool) (cfg : String → String) (ct rpc : String) (chk : Bool),
      hasAccess u r cfg ct rpc chk = hasAccessAmended u r ct rpc chk := by
    intro u r cfg ct rpc chk
    by_cases h1 : rpc = "receive-pack"
    · subst h1; rfl
    · by_cases h2 : rpc = "upload-pack"
      · subst h2; rfl
      · simp [hasAccess, hasAccessAmended, h1, h2]
  exact ⟨fun u r cfg cfg2 ct rpc chk => by rw [key, key], key,
    fun cfg => rfl, fun cfg => rfl⟩

/-- C5: the claim states that a match of the flush alternative produces no
event.  Evaluating the code at the failing input: the flush alternative
matches exactly when the payload is `"0000"`, and the extraction loop then
emits one `TAG` event with empty `Last`, `Commit` and `Tag` fields
(groups 1-4 are unset, and `m[3] == "heads"` is false), rather than
skipping the match. -/
theorem receivePack_flush_emits_tag_eval :
    receivePackEvents "/d" "0000" = [⟨EventType.TAG, "", "/d", "", "", ""⟩] := by
  decide

/-- `takeWhile` consumes an append whose first part satisfies the predicate
throughout and whose continuation starts with a failing element. -/
theorem takeWhile_append_stop (p : Char → Bool) (tok : List Char) (c : Char)
    (rest : List Char) (h1 : ∀ x ∈ tok, p x = true) (h2 : p c = false) :
    (tok ++ c :: rest).takeWhile p = tok := by
  induction tok with
  | nil => simp [List.takeWhile_cons, h2]
  | cons a t ih =>
    have ha : p a = true := h1 a (by simp)
    simp only [List.cons_append, List.takeWhile_cons, ha, if_true]
    rw [ih (fun x hx => h1 x (by simp [hx]))]

/-- C3 counterexample: a payload with two distinct `want` lines yields one
Fetch event (for the first line), not two — the pattern's `^` anchor allows
at most one match. -/
theorem uploadPack_two_wants_cex :
    uploadPackEvents "/d"
        "want a647ec2ea40ee9ca35d32232dc28de22b1537e00\nwant 92eef6dcb9cc198bc3ac6010c108fa482773f116\n"
      = [⟨EventType.FETCH, "a647ec2ea40ee9ca35d32232dc28de22b1537e00", "/d", "", "", ""⟩]
    ∧ (uploadPackEvents "/d"
        "want a647ec2ea40ee9ca35d32232dc28de22b1537e00\nwant 92eef6dcb9cc198bc3ac6010c108fa482773f116\n").length
      ≠ 2 := by
  refine ⟨by decide, by decide⟩

/-- C3 amended: upload-pack extraction emits at most one Fetch event; a
payload that begins with a non-whitespace token, a space, and a forty-hex
SHA emits exactly one Fetch event carrying that SHA (so the single-want
fixture line yields one event, and any further `want` lines are ignored
because the scan is anchored at the start of the payload). -/
theorem uploadPack_scan_amended :
    (∀ dir input : String, (uploadPackEvents dir input).length ≤ 1)
    ∧ (∀ (dir : String) (tok sha rest : List Char),
        tok ≠ [] → (∀ c ∈ tok, goIsSpace c = false) →
        sha.length = 40 → (∀ c ∈ sha, goIsHex c = true) →
        uploadPackEvents dir (String.mk (tok ++ ' ' :: (sha ++ rest)))
          = [⟨EventType.FETCH, String.mk sha, dir, "", "", ""⟩]) := by
  constructor
  · intro dir input
    simp only [uploadPackEvents, List.length_map, uploadPackScan]
    split
    · simp
    · split
      · split
        · simp
        · simp
      · simp
  · intro dir tok sha rest htok hsp hlen hhex
    simp only [uploadPackEvents, uploadPackScan,
      show (String.mk (tok ++ ' ' :: (sha ++ rest))).data = tok ++ ' ' :: (sha ++ rest) from rfl]
    rw [takeWhile_append_stop _ tok ' ' (sha ++ rest)
      (fun x hx => by simp [hsp x hx]) (by decide)]
    have hne : tok.isEmpty = false := by
      cases tok with
      | nil => exact absurd rfl htok
      | cons a t => rfl
    rw [hne]
    simp only [Bool.false_eq_true, if_false]
    rw [drop_append_of_length tok (' ' :: (sha ++ rest)) tok.length rfl]
    simp only [take_append_of_length sha rest 40 hlen]
    rw [hlen]
    simp [List.all_eq_true.mpr hhex]

/-- Witness for C3's amended theorem at the single-want fixture payload. -/
theorem uploadPack_scan_amended_witness :
    uploadPackEvents "/d"
        (String.mk ("want".data ++ ' ' :: ("a647ec2ea40ee9ca35d32232dc28de22b1537e00".data ++ "\n".data)))
      = [⟨EventType.FETCH, "a647ec2ea40ee9ca35d32232dc28de22b1537e00", "/d", "", "", ""⟩] :=
  uploadPack_scan_amended.2 "/d" "want".data "a647ec2ea40ee9ca35d32232dc28de22b1537e00".data
    "\n".data (by decide) (by decide) (by decide) (by decide)

/-- C4 counterexample: on the exact payload of the claim — forty zeros, a
space, the new SHA, a space, `refs/heads/master`, with nothing after the
ref name — the extraction emits no event at all: the regex requires a
terminator (space, `00`, or NUL) after the lazily-matched ref name, and the
payload ends without one. -/
theorem receivePack_unterminated_cex :
    receivePackEvents "/d"
        "0000000000000000000000000000000000000000 92eef6dcb9cc198bc3ac6010c108fa482773f116 refs/heads/master"
      = []
    ∧ receivePackEvents "/d"
        "0000000000000000000000000000000000000000 92eef6dcb9cc198bc3ac6010c108fa482773f116 refs/heads/master"
      ≠ [⟨EventType.PUSH, "92eef6dcb9cc198bc3ac6010c108fa482773f116", "/d", "",
          "0000000000000000000000000000000000000000", "master"⟩] := by
  refine ⟨by decide, by decide⟩

/-- C4 amended: the same ref-update line followed by one of the three
terminators the regex accepts — a NUL byte (as in real receive-pack
payloads), a space, or the two characters `00` — yields exactly one Push
event with `Last` the forty zeros, `Commit` the new SHA, and `Branch`
`master`. -/
theorem receivePack_terminated_push :
    receivePackEvents "/d"
        ("0000000000000000000000000000000000000000 92eef6dcb9cc198bc3ac6010c108fa482773f116 refs/heads/master"
          ++ String.mk [Char.ofNat 0])
      = [⟨EventType.PUSH, "92eef6dcb9cc198bc3ac6010c108fa482773f116", "/d", "",
          "0000000000000000000000000000000000000000", "master"⟩]
    ∧ receivePackEvents "/d"
        "0000000000000000000000000000000000000000 92eef6dcb9cc198bc3ac6010c108fa482773f116 refs/heads/master "
      = [⟨EventType.PUSH, "92eef6dcb9cc198bc3ac6010c108fa482773f116", "/d", "",
          "0000000000000000000000000000000000000000", "master"⟩]
    ∧ receivePackEvents "/d"
        "0000000000000000000000000000000000000000 92eef6dcb9cc198bc3ac6010c108fa482773f116 refs/heads/master00"
      = [⟨EventType.PUSH, "92eef6dcb9cc198bc3ac6010c108fa482773f116", "/d", "",
          "0000000000000000000000000000000000000000", "master"⟩] := by
  refine ⟨by decide, by decide, by decide⟩

/-- C6: the claim states that routing is deterministic with overlapping
patterns resolved most-specific-first.  Evaluating the code at the failing
input: the services table is a Go map, so any permutation of it is a
possible iteration order; under the source's textual order the path
`/repo/objects/info/packs` selects the info-packs entry, while under
another permutation (the generic `objects/info` pattern visited first) the
same path selects the generic text-file entry. -/
theorem routing_order_dependent :
    List.Perm servicesOrderVariant services
    ∧ getService services "/repo/objects/info/packs"
        = some ("/repo", ⟨GitPattern.infoPacks, "GET", Handler.getInfoPacks, ""⟩)
    ∧ getService servicesOrderVariant "/repo/objects/info/packs"
        = some ("/repo", ⟨GitPattern.infoFile, "GET", Handler.getTextFile, ""⟩) := by
  refine ⟨by decide, by decide, by decide⟩

/-- C7: whatever iteration order the services map presents, when the first
matching entry's method differs from the request method the handler renders
method-not-allowed — 405 `"Method Not Allowed"` under HTTP/1.1 and 400
`"Bad Request"` under older protocol versions — which is distinct from the
404 `"Not Found"` rendered when no pattern matches. -/
theorem method_mismatch_renders_405 :
    ∀ (order : List ServiceEntry) (projectRoot cwd : String) (stat : String → Bool)
      (method proto path : String),
      (∀ repo svc, getService order path = some (repo, svc) → svc.method ≠ method →
          requestHandler order projectRoot cwd stat method proto path = renderMethodNotAllowed proto
          ∧ (proto = "HTTP/1.1" →
              renderMethodNotAllowed proto = RouteOutcome.response 405 "Method Not Allowed")
          ∧ (proto ≠ "HTTP/1.1" →
              renderMethodNotAllowed proto = RouteOutcome.response 400 "Bad Request")
          ∧ renderMethodNotAllowed proto ≠ renderNotFound)
      ∧ (getService order path = none →
          requestHandler order projectRoot cwd stat method proto path = renderNotFound) := by
  intro order projectRoot cwd stat method proto path
  constructor
  · intro repo svc hget hm
    refine ⟨?_, ?_, ?_, ?_⟩
    · simp only [requestHandler, hget]
      rw [if_pos (bne_iff_ne.mpr hm)]
    · intro hp
      simp [renderMethodNotAllowed, hp]
    · intro hp
      simp [renderMethodNotAllowed, hp]
    · unfold renderMethodNotAllowed renderNotFound
      split
      · simp
      · simp
  · intro hget
    simp only [requestHandler, hget]

/-- Witness for C7: a GET to the upload-pack endpoint under HTTP/1.1. -/
theorem method_mismatch_renders_405_witness :
    requestHandler services "/srv" "/" (fun _ => true) "GET" "HTTP/1.1" "/repo/git-upload-pack"
      = RouteOutcome.response 405 "Method Not Allowed" := by
  have h := (method_mismatch_renders_405 services "/srv" "/" (fun _ => true) "GET"
      "HTTP/1.1" "/repo/git-upload-pack").1 "/repo"
      ⟨GitPattern.serviceRpcUpload, "POST", Handler.serviceRpc, "upload-pack"⟩
      (by decide) (by decide)
  rw [h.1, h.2.1 rfl]

/-- C9: the claim states the proxy writes the body and drains the
subprocess output on two concurrently-running joined tasks, never as a
sequential write-then-read.  Evaluating the code on any authorized request:
the step trace of `serviceRpc` is a single sequential list in which the
write of the entire buffered body to the subprocess's stdin strictly
precedes the copy of its stdout to the response, which precedes the wait —
there is no concurrency at all. -/
theorem serviceRpc_sequential_write_then_read :
    ∀ (u r : Bool) (cfg : String → String) (ct rpc dir input : String)
      (sub : SubprocessOutcome),
      hasAccess u r cfg ct rpc true = true →
      ∃ steps, (serviceRpc u r cfg ct true rpc dir input sub).2
          = steps ++ [RpcStep.stdinWrite input, RpcStep.copyStdoutToResponse,
              RpcStep.waitExit sub.exitOk]
        ∧ RpcStep.copyStdoutToResponse ∉ steps ∧ RpcStep.stdinWrite input ∉ steps := by
  intro u r cfg ct rpc dir input sub hacc
  refine ⟨[RpcStep.setContentType ("application/x-git-" ++ rpc ++ "-result"),
      RpcStep.writeHeaderOK] ++ (if sub.startOk then [] else [RpcStep.logStartError]),
    ?_, ?_, ?_⟩
  · simp only [serviceRpc, hacc]
    simp [List.append_assoc]
  · cases sub.startOk <;> simp
  · cases sub.startOk <;> simp

/-- Witness for C9 at a concrete authorized receive-pack request. -/
theorem serviceRpc_sequential_write_then_read_witness :
    ∃ steps, (serviceRpc true true (fun _ => "") "application/x-git-receive-pack-request"
        true "receive-pack" "/d" "payload" ⟨true, true⟩).2
        = steps ++ [RpcStep.stdinWrite "payload", RpcStep.copyStdoutToResponse,
            RpcStep.waitExit true]
      ∧ RpcStep.copyStdoutToResponse ∉ steps ∧ RpcStep.stdinWrite "payload" ∉ steps :=
  serviceRpc_sequential_write_then_read true true (fun _ => "")
    "application/x-git-receive-pack-request" "receive-pack" "/d" "payload"
    ⟨true, true⟩ (by decide)

/-- C10: for every request that passes the access check (and whose body
reader succeeds), the events `serviceRpc` publishes are exactly the ones
extracted from the payload, independent of whether the subprocess started
or how it exited: a subprocess failure never suppresses, adds, or reorders
them. -/
theorem events_independent_of_subprocess :
    ∀ (u r : Bool) (cfg : String → String) (ct rpc dir input : String)
      (sub sub2 : SubprocessOutcome),
      hasAccess u r cfg ct rpc true = true →
      (serviceRpc u r cfg ct true rpc dir input sub).1 = extractEvents rpc dir input
      ∧ (serviceRpc u r cfg ct true rpc dir input sub).1
          = (serviceRpc u r cfg ct true rpc dir input sub2).1 := by
  intro u r cfg ct rpc dir input sub sub2 hacc
  constructor
  · simp [serviceRpc, hacc]
  · simp [serviceRpc, hacc]

/-- Witness for C10: a concrete authorized upload-pack request, with a
subprocess that fails to start on one side and succeeds on the other. -/
theorem events_independent_of_subprocess_witness :
    (serviceRpc true true (fun _ => "") "application/x-git-upload-pack-request"
        true "upload-pack" "/d" "want a647ec2ea40ee9ca35d32232dc28de22b1537e00\n"
        ⟨false, false⟩).1
      = extractEvents "upload-pack" "/d" "want a647ec2ea40ee9ca35d32232dc28de22b1537e00\n"
    ∧ (serviceRpc true true (fun _ => "") "application/x-git-upload-pack-request"
        true "upload-pack" "/d" "want a647ec2ea40ee9ca35d32232dc28de22b1537e00\n"
        ⟨false, false⟩).1
      = (serviceRpc true true (fun _ => "") "application/x-git-upload-pack-request"
          true "upload-pack" "/d" "want a647ec2ea40ee9ca35d32232dc28de22b1537e00\n"
          ⟨true, true⟩).1 :=
  events_independent_of_subprocess true true (fun _ => "")
    "application/x-git-upload-pack-request" "upload-pack" "/d"
    "want a647ec2ea40ee9ca35d32232dc28de22b1537e00\n" ⟨false, false⟩ ⟨true, true⟩
    (by decide)

end Githttp
